import Mathlib

/-!
Shallow embedding of the ForgeScan experiment-orchestration scripts
(`scripts/sweep_run_experiment.py`, `scripts/figures/plot_experiment_result_confusion.py`,
`scripts/plot_confusion.py`, `scripts/run_precompute_views.py`,
`scripts/experiments/experiment_3.py`) and proofs about the sweep generator,
the command-protocol encoder, the confusion-matrix metrics, the result reader
and the executable discovery logic.

Numeric values flowing through the metric formulas are embedded as rationals
(the Python scripts use exact small integers and divisions of them); Python's
`ZeroDivisionError` is embedded by making division fallible (`Option`), so a
metric "raises" exactly when it returns `none`.
-/

namespace ForgeScan

/-- Python division `a / float(b)`: raises `ZeroDivisionError` when the
denominator is zero, otherwise returns the exact quotient. -/
def pydiv (a b : ℚ) : Option ℚ :=
  if b = 0 then none else some (a / b)

/-! ## Confusion-matrix metrics
From `scripts/figures/plot_experiment_result_confusion.py`, lines 64-202.
Each function mirrors the source's argument list and formula. -/

/-- Source: `accuracy(tp, tn, fp, fn) = (tp + tn) / float(tp + fp + tn + fn)`. -/
def accuracy (true_positive true_negative false_positive false_negative : ℚ) : Option ℚ :=
  pydiv (true_positive + true_negative)
        (true_positive + false_positive + true_negative + false_negative)

/-- Source: `precision(tp, fp) = tp / float(tp + fp)`. -/
def precision (true_positive false_positive : ℚ) : Option ℚ :=
  pydiv true_positive (true_positive + false_positive)

/-- Source: `sensitivity(tp, fn) = tp / float(tp + fn)`. -/
def sensitivity (true_positive false_negative : ℚ) : Option ℚ :=
  pydiv true_positive (true_positive + false_negative)

/-- Source: `specificity(tn, fp) = tn / float(tn + fp)`. -/
def specificity (true_negative false_positive : ℚ) : Option ℚ :=
  pydiv true_negative (true_negative + false_positive)

/-- Source: `fall_out(tn, fp) = fp / float(fp + tn)`. -/
def fall_out (true_negative false_positive : ℚ) : Option ℚ :=
  pydiv false_positive (false_positive + true_negative)

/-- Source: `miss_rate(tp, fn) = fn / float(fn + tp)`. -/
def miss_rate (true_positive false_negative : ℚ) : Option ℚ :=
  pydiv false_negative (false_negative + true_positive)

/-- Index constants for the extracted Nx4 matrix (source lines 65-68). -/
def TP : Nat := 0

def TN : Nat := 1

def FP : Nat := 2

def FN : Nat := 3

/-- One extracted confusion row, indexed by the `TP`/`TN`/`FP`/`FN` constants. -/
def rowGet (arr : List ℚ) (i : Nat) : ℚ := arr.getD i 0

/-- Source: `arr_accuracy(arr) = accuracy(arr[TP], arr[TN], arr[FP], arr[FN])`. -/
def arr_accuracy (arr : List ℚ) : Option ℚ :=
  accuracy (rowGet arr TP) (rowGet arr TN) (rowGet arr FP) (rowGet arr FN)

/-- Source: `arr_precision(arr) = precision(arr[TP], arr[FP])`. -/
def arr_precision (arr : List ℚ) : Option ℚ :=
  precision (rowGet arr TP) (rowGet arr FP)

/-- Source: `arr_sensitivity(arr) = sensitivity(arr[TP], arr[FN])`. -/
def arr_sensitivity (arr : List ℚ) : Option ℚ :=
  sensitivity (rowGet arr TP) (rowGet arr FN)

/-- Source: `arr_specificity(arr) = specificity(arr[TN], arr[FP])`. -/
def arr_specificity (arr : List ℚ) : Option ℚ :=
  specificity (rowGet arr TN) (rowGet arr FP)

/-- Source: `arr_balanced_accuracy(arr) = 0.5*(sensitivity(arr[TP], arr[FN]) + specificity(arr[TN], arr[FP]))`.
Python evaluates `sensitivity` first; a `ZeroDivisionError` from either call
propagates, which the `Option` bind models. -/
def arr_balanced_accuracy (arr : List ℚ) : Option ℚ :=
  (sensitivity (rowGet arr TP) (rowGet arr FN)).bind fun s =>
    (specificity (rowGet arr TN) (rowGet arr FP)).map fun p => (1/2) * (s + p)

/-- Source: `arr_fall_out(arr) = fall_out(arr[TN], arr[FP])`. -/
def arr_fall_out (arr : List ℚ) : Option ℚ :=
  fall_out (rowGet arr TN) (rowGet arr FP)

/-- Source: `arr_miss_rate(arr) = miss_rate(arr[TP], arr[FN])`. -/
def arr_miss_rate (arr : List ℚ) : Option ℚ :=
  miss_rate (rowGet arr TP) (rowGet arr FN)

/-- Source: `arr_true_positive(arr) = arr[TP]` (a raw count, no division). -/
def arr_true_positive (arr : List ℚ) : Option ℚ := some (rowGet arr TP)

/-- Source: `arr_true_negative(arr) = arr[TN]`. -/
def arr_true_negative (arr : List ℚ) : Option ℚ := some (rowGet arr TN)

/-- Source: `arr_false_positive(arr) = arr[FP]`. -/
def arr_false_positive (arr : List ℚ) : Option ℚ := some (rowGet arr FP)

/-- Source: `arr_false_negative(arr) = arr[FN]`. -/
def arr_false_negative (arr : List ℚ) : Option ℚ := some (rowGet arr FN)

/-- The `PLOT_OPTIONS` table (source lines 189-202): each key maps to the
metric function applied along rows of the extracted data. The figure-style
component of each pair is irrelevant to the claims and is dropped. -/
def PLOT_OPTIONS : List (String × (List ℚ → Option ℚ)) :=
  [ ("accuracy",          arr_accuracy),
    ("precision",         arr_precision),
    ("sensitivity",       arr_sensitivity),
    ("specificity",       arr_specificity),
    ("balanced-accuracy", arr_balanced_accuracy),
    ("fall-out",          arr_fall_out),
    ("miss-rate",         arr_miss_rate),
    ("true-positive",     arr_true_positive),
    ("true-negative",     arr_true_negative),
    ("false-positive",    arr_false_positive),
    ("false-negative",    arr_false_negative) ]

/-! ## Sweep tables
From `scripts/sweep_run_experiment.py`, lines 45-116. `str(VIEW_RADIUS)` is the
literal `"2.5"` in every policy argument string. -/

/-- Source: `REGULAR_RERUNS = 1` (source line 48). -/
def REGULAR_RERUNS : Nat := 1

/-- Source: `RANDOM_RERUNS = 10` (source line 49). -/
def RANDOM_RERUNS : Nat := 10

/-- Source: `RANDOM_SEED = False` (source line 57). -/
def RANDOM_SEED : Bool := false

/-- Source: `N_VIEWS = [5, 10, 15, 20]` (source line 59). -/
def N_VIEWS : List Nat := [5, 10, 15, 20]

/-- Source: `INTRINSICS` (source lines 63-76): pairs of (name, intrinsic args). -/
def INTRINSICS : List (String × String) :=
  [ ("RealSense_d455", "--d455 1.0"),
    ("RealSense_d455_Noise_02", "--d455 1.0 --noise 0.02"),
    ("RealSense_d455_Noise_10", "--d455 1.0 --noise 0.10") ]

/-- Source: `METHODS` (source lines 80-116): triples of (name, policy arg string, re-runs). -/
def METHODS : List (String × String × Nat) :=
  [ ("Sphere_Uniform", "--type sphere --uniform --r 2.5", REGULAR_RERUNS),
    ("Sphere_Unordered", "--type sphere --uniform --unordered --r 2.5", RANDOM_RERUNS),
    ("Sphere_Random", "--type sphere --r 2.5", RANDOM_RERUNS),
    ("Axis_X-axis", "--type axis --x-axis --uniform --r 2.5", REGULAR_RERUNS),
    ("Axis_Y-axis", "--type axis --y-axis --uniform --r 2.5", REGULAR_RERUNS),
    ("Axis_Z-axis", "--type axis --z-axis --uniform --r 2.5", REGULAR_RERUNS),
    ("Axis_Random", "--type axis --random-axis --uniform --change-random  --r 2.5",
      RANDOM_RERUNS) ]

/-! ## Command-protocol view-budget encoder
From `call_process` in `scripts/sweep_run_experiment.py`, lines 129-135: the
policy line of the stdin block ends either in `--n-views 5 --n-repeat (n/5)`
(for the policy named "Axis_Random", where `n_views / 5` is Python float
division, exact on multiples of 5, embedded as rational division) or in
`--n-views n` (every other policy). -/

/-- The view-budget flags appended to a policy's argument string: the value
after `--n-views`, and the value after `--n-repeat` when that flag is emitted
at all. -/
structure ViewBudgetArgs where
  nViews : ℚ
  nRepeat : Option ℚ
deriving DecidableEq, Repr

/-- Lines 130-134 of `call_process`: the special case for `Axis_Random` versus
the flat `--n-views` emission of every other policy. -/
def encodeViewBudget (policy_name : String) (n_views : Nat) : ViewBudgetArgs :=
  if policy_name = "Axis_Random" then
    ⟨5, some ((n_views : ℚ) / 5)⟩
  else
    ⟨(n_views : ℚ), none⟩

/-! ## Sweep parameter generator
From `main` in `scripts/sweep_run_experiment.py`, lines 154-189: five nested
loops (intrinsic, scene, policy, view count, repetition `1..reps`), a counter
`n` incremented for every combination, and a resume test `n < start`. -/

/-- One sweep configuration, tagged with the table entries that produced it. -/
structure SweepItem where
  intrName : String
  sceneName : String
  policyName : String
  nViews : Nat
  rep : Nat
deriving DecidableEq, Repr

/-- The full nested-loop enumeration, in the source's nesting order:
intrinsic, then scene, then policy, then view count, then repetition
(`range(1, reps + 1)`). -/
def sweepItems (intrinsics : List (String × String)) (scenes : List String)
    (methods : List (String × String × Nat)) (nviews : List Nat) : List SweepItem :=
  intrinsics.flatMap fun intr =>
    scenes.flatMap fun scene =>
      methods.flatMap fun m =>
        nviews.flatMap fun nv =>
          (List.range m.2.2).map fun r => ⟨intr.1, scene, m.1, nv, r + 1⟩

/-- The up-front total `N` (source lines 160-161):
`len(INTRINSICS) * len(GROUND_TRUTH_FILES) * len(N_VIEWS) * sum(m[2] for m in METHODS)`. -/
def sweepTotal (intrinsics : List (String × String)) (scenes : List String)
    (methods : List (String × String × Nat)) (nviews : List Nat) : Nat :=
  intrinsics.length * scenes.length * nviews.length * (methods.map fun m => m.2.2).sum

/-- The configurations actually executed, each with its 1-based global index
`n`: the counter is incremented for every combination and combinations with
`n < start` are skipped (source lines 169-172). -/
def sweepVisited (start : Nat) (intrinsics : List (String × String)) (scenes : List String)
    (methods : List (String × String × Nat)) (nviews : List Nat) : List (Nat × SweepItem) :=
  (sweepItems intrinsics scenes methods nviews).enum.filterMap fun p =>
    if p.1 + 1 < start then none else some (p.1 + 1, p.2)

/-! ## Seed selection
Source line 174: `seed = random.randrange(1, 1e8) if RANDOM_SEED else rep`.
The `draw` argument stands for the value `random.randrange(1, 1e8)` would
return, which always lies in `[1, 10^8)`. -/

/-- Seed chosen for one configuration. -/
def seedFor (random_seed : Bool) (draw : Nat) (rep : Nat) : Nat :=
  if random_seed then draw else rep

/-! ## Output paths and the skip-if-exists loop body
From `main` in `scripts/sweep_run_experiment.py`, lines 176-189. The file
system is modelled as the list of existing paths (directories and files). -/

/-- Source: `fpath = fpath_base / Path(intr[0], scene_stem, policy[0], str(n_views), str(rep))`. -/
def outputDir (base : String) (c : SweepItem) : String :=
  base ++ "/" ++ c.intrName ++ "/" ++ c.sceneName ++ "/" ++ c.policyName ++ "/" ++
    toString c.nViews ++ "/" ++ toString c.rep

/-- Source: `fpath /= "results" + HDF5_EXTENSION`. -/
def resultFile (base : String) (c : SweepItem) : String :=
  outputDir base c ++ "/results.h5"

/-- Sweep-loop state: the set of existing paths and the configurations handed
to `call_process` (the Process Driver subprocess), in invocation order. -/
structure SweepState where
  fs : List String
  invoked : List SweepItem
deriving DecidableEq, Repr

/-- One iteration of the innermost loop body, after the seed choice (source
lines 176-189): create the configuration's directory when absent
(`fpath.mkdir(parents=True)`), then skip when the result file exists and
`--no-override` was passed, otherwise invoke `call_process`. -/
def stepConfig (no_override : Bool) (base : String) (st : SweepState) (c : SweepItem) :
    SweepState :=
  let dir := outputDir base c
  let fs1 := if dir ∈ st.fs then st.fs else dir :: st.fs
  if resultFile base c ∈ fs1 ∧ no_override then
    ⟨fs1, st.invoked⟩
  else
    ⟨fs1, st.invoked ++ [c]⟩

/-- The loop over the remaining configurations. -/
def runSweep (no_override : Bool) (base : String) (st : SweepState) :
    List SweepItem → SweepState
  | [] => st
  | c :: rest => runSweep no_override base (stepConfig no_override base st c) rest

/-! ## Result Reader
From `get_metric_group` in `scripts/figures/plot_experiment_result_confusion.py`
(lines 209-214) and `get_metric_occupancy_confusion_group` in
`scripts/plot_confusion.py` (lines 25-31). An HDF5 file is a tree of named
groups and datasets; `file["key"]` raises `KeyError` (embedded as `none`) when
the key is absent, and returns the stored node otherwise. -/

/-- A node of an HDF5 result file. -/
inductive H5Node where
| dataset (data : List (List ℚ)) : H5Node
| group (entries : List (String × H5Node)) : H5Node

/-- Source: `node["key"]` on an already-retrieved node. -/
def h5Child (node : H5Node) (key : String) : Option H5Node :=
  match node with
  | H5Node.dataset _ => none
  | H5Node.group entries => entries.lookup key

/-- Source: `get_metric_group`: `h5py.File(hdf5_path, "r")["Metric"]`. The top-level
file is its list of named root entries. -/
def get_metric_group (file : List (String × H5Node)) : Option H5Node :=
  file.lookup "Metric"

/-- Source: `get_metric_occupancy_confusion_group`:
`h5py.File(hdf5_path, "r")["Metric"]["OccupancyConfusion"]`; a `KeyError` from
the first lookup propagates. -/
def get_metric_occupancy_confusion_group (file : List (String × H5Node)) : Option H5Node :=
  (file.lookup "Metric").bind fun g => h5Child g "OccupancyConfusion"

/-! ## Executable discovery
From `scripts/sweep_run_experiment.py` lines 10-28 (and the identical logic in
`scripts/run_precompute_views.py` lines 5-23): iterate the binary directory,
keep the first regular file whose name contains the executable name at index
0, and assert that one was found. -/

/-- Python `s.find(sub)`: the smallest index at which `sub` occurs in `s`, or
`-1` when it does not occur. -/
def pyStrFind (s sub : String) : Int :=
  match (List.range (s.length + 1)).find?
      (fun i => (s.toList.drop i).take sub.length = sub.toList) with
  | some i => (i : Int)
  | none => -1

/-- One entry returned by `BINARIES_PATH.iterdir()`. -/
structure DirEntry where
  name : String
  isRegularFile : Bool
deriving DecidableEq, Repr

/-- Source: `EXECUTABLE_NAME = 'RunExperiment'` (source line 10). -/
def EXECUTABLE_NAME : String := "RunExperiment"

/-- The discovery loop (source lines 20-23): the first entry with
`item.is_file() and item.name.find(EXECUTABLE_NAME) == 0` is taken and the
loop breaks; later matches are never examined. -/
def findExecutable (entries : List DirEntry) (execName : String) : Option DirEntry :=
  entries.find? fun e => e.isRegularFile && pyStrFind e.name execName == 0

/-- The startup assertion (source lines 25-28):
`EXECUTABLE_PATH is not None and EXECUTABLE_PATH.exists() and EXECUTABLE_PATH.is_file()`.
A found entry came from `iterdir()` and already passed `is_file()`, so the
assertion reduces to the search having succeeded. -/
def executableAssertionPasses (entries : List DirEntry) (execName : String) : Bool :=
  (findExecutable entries execName).isSome

/-! ## Plotting entry point assertion
From `main` in `scripts/figures/plot_experiment_result_confusion.py`, lines
309-324: the first statement asserts
`parsed_args.plot in PLOT_OPTIONS.keys()`; only afterwards does the script
select an experiment directory, open result files and save figures. -/

/-- A side effect the plotting run performs after the assertion. -/
inductive PlotEffect where
| openResultFile (path : String) : PlotEffect
| saveFigure (path : String) : PlotEffect
deriving DecidableEq, Repr

/-- The entry point: an `AssertionError` (embedded as `Except.error`) is
raised before any effect when the metric name is not a `PLOT_OPTIONS` key;
otherwise the run proceeds and performs the effects of the rest of `main`
(abstracted as `effectsAfterCheck`, since they depend on the file system). -/
def plotMain (plot : String) (effectsAfterCheck : List PlotEffect) :
    Except String (List PlotEffect) :=
  if plot ∈ PLOT_OPTIONS.map Prod.fst then
    Except.ok effectsAfterCheck
  else
    Except.error ("The option " ++ plot ++ " is not a valid plotting option.")

/-! ## Aliased buffers in `plot_policy_sweep`
From `plot_policy_sweep` in `scripts/figures/plot_experiment_result_confusion.py`,
lines 241-305. The buffers are built as
`data = [np.zeros((views, 4, len(reps)))] * n_group` and
`result = [np.zeros((views + 1, len(reps)))] * n_group`: Python list
multiplication copies the reference, so all `n_group` slots of each list point
at one shared array object, and an in-place slice assignment through any index
mutates that one shared object. -/

/-- A Python list created by `[x] * n`: `n` slots, one shared object. Reading
any index returns the shared object; an in-place write through any index
replaces the shared object's contents for every slot. -/
structure AliasedList (α : Type) where
  cell : α
  len : Nat

/-- Source: `[x] * n`. -/
def pyListRepeat (x : α) (n : Nat) : AliasedList α := ⟨x, n⟩

/-- Source: `l[i]` (every slot yields the shared object). -/
def AliasedList.get (l : AliasedList α) (_i : Nat) : α := l.cell

/-- In-place mutation of `l[i]` to value `v`: the shared object now holds `v`. -/
def AliasedList.writeAt (l : AliasedList α) (_i : Nat) (v : α) : AliasedList α :=
  ⟨v, l.len⟩

/-- Source: `confusion_groups` (source line 241), in read order; the last group read
is `"OccupancyConfusion_probability"`. -/
def CONFUSION_GROUPS : List String :=
  ["OccupancyConfusion_TSDF", "OccupancyConfusion_binary", "OccupancyConfusion_probability"]

/-- The per-group data buffer (`np.zeros((views, 4, reps))`) modelled as a
list over repetition index of `views x 4` row matrices, and the per-group
result buffer (`np.zeros((views + 1, reps))`) as a list over repetition index
of its columns. -/
def zerosMatrix (nViews : Nat) : List (List ℚ) :=
  List.replicate nViews (List.replicate 4 (0 : ℚ))

/-- A zero column of the result buffer (`views + 1` rows). -/
def zerosColumn (nViews : Nat) : List (Option ℚ) :=
  List.replicate (nViews + 1) (some (0 : ℚ))

/-- The state of the two buffer lists during the repetition loop. -/
def SweepBuffers : Type :=
  AliasedList (List (List (List ℚ))) × AliasedList (List (List (Option ℚ)))

/-- The body of `for g, group in enumerate(confusion_groups)` (source lines
270-273) for repetition index `i`:
`data[g][:, :, i] = confusion_group.get("data")[:, 1:5]` writes the group's
extracted rows into slice `i` of `data[g]`, then
`result[g][1:, i] = np.apply_along_axis(metric, 1, data[g][:, :, i])` reads
that slice back and writes the metric curve into rows `1..` of column `i` of
`result[g]` (row 0 keeps its initial zero). `readData i grp` stands for the
rows `[:, 1:5]` of the `data` dataset of group `grp` in repetition `i`'s
result file. -/
def groupStep (metric : List ℚ → Option ℚ) (readData : Nat → String → List (List ℚ))
    (i : Nat) (bufs : SweepBuffers) (gg : Nat × String) : SweepBuffers :=
  let d := (bufs.1.get gg.1).set i (readData i gg.2)
  let dataBuf := bufs.1.writeAt gg.1 d
  let slice := (dataBuf.get gg.1).getD i []
  let resultBuf := bufs.2.writeAt gg.1
    ((bufs.2.get gg.1).set i (some 0 :: slice.map metric))
  (dataBuf, resultBuf)

/-- The repetition loop `for i, reps in enumerate(reps_dirs)` (source lines
267-273) over one view-count directory with `nReps` repetition directories,
starting from the freshly allocated aliased buffers (source lines 264-265). -/
def sweepBuffers (metric : List ℚ → Option ℚ) (readData : Nat → String → List (List ℚ))
    (nReps nViews : Nat) : SweepBuffers :=
  let init : SweepBuffers :=
    (pyListRepeat (List.replicate nReps (zerosMatrix nViews)) CONFUSION_GROUPS.length,
     pyListRepeat (List.replicate nReps (zerosColumn nViews)) CONFUSION_GROUPS.length)
  (List.range nReps).foldl (fun bufs i =>
    CONFUSION_GROUPS.enum.foldl (groupStep metric readData i) bufs) init

/-- The data behind the curves plotted on figure `g` and saved as the figure
for confusion source `g` (source lines 277-288 and 290-305): the contents of
`result[g]` once the loops finish, one column per repetition. -/
def savedFigureData (metric : List ℚ → Option ℚ) (readData : Nat → String → List (List ℚ))
    (nReps nViews : Nat) (g : Nat) : List (List (Option ℚ)) :=
  (sweepBuffers metric readData nReps nViews).2.get g

/-- The result-buffer contents an un-aliased implementation would compute for
a single confusion group `grp`: one column per repetition, row 0 zero and
rows `1..` the metric values of that group's extracted rows. -/
def groupOnlyResult (metric : List ℚ → Option ℚ) (readData : Nat → String → List (List ℚ))
    (nReps : Nat) (grp : String) : List (List (Option ℚ)) :=
  (List.range nReps).map fun i => some 0 :: (readData i grp).map metric

/-! ## Helper lemmas -/

/-- Source: `pydiv` fails exactly on a zero denominator. -/
theorem pydiv_eq_none_iff (a b : ℚ) : pydiv a b = none ↔ b = 0 := by
  unfold pydiv
  split <;> simp_all

/-- Source: `pydiv` on a nonzero denominator returns the exact quotient. -/
theorem pydiv_of_ne (a b : ℚ) (h : b ≠ 0) : pydiv a b = some (a / b) := by
  unfold pydiv
  simp [h]

/-- Indexing the four-entry row with the `TP`/`TN`/`FP`/`FN` constants. -/
theorem rowGet_four (tp tn fp fn : ℚ) :
    rowGet [tp, tn, fp, fn] TP = tp ∧ rowGet [tp, tn, fp, fn] TN = tn ∧
    rowGet [tp, tn, fp, fn] FP = fp ∧ rowGet [tp, tn, fp, fn] FN = fn := by
  refine ⟨rfl, rfl, rfl, rfl⟩

/-- C4: the seven metric functions compute the standard confusion-matrix
ratios: fall-out is `1 - specificity`, miss-rate is `1 - sensitivity`,
balanced accuracy is the mean of sensitivity and specificity, and on the row
TP=80, TN=10, FP=5, FN=5 they return accuracy `9/10`, precision `80/85`,
sensitivity `80/85`, specificity `10/15`, balanced accuracy
`(80/85 + 10/15)/2`, fall-out `5/15` and miss-rate `5/85`. -/
theorem metrics_standard_formulas (tp tn fp fn : ℚ)
    (hsens : tp + fn ≠ 0) (hspec : tn + fp ≠ 0) :
    fall_out tn fp = (specificity tn fp).map (fun s => 1 - s) ∧
    miss_rate tp fn = (sensitivity tp fn).map (fun s => 1 - s) ∧
    arr_balanced_accuracy [tp, tn, fp, fn] =
      (sensitivity tp fn).bind (fun s => (specificity tn fp).map fun p => (s + p) / 2) ∧
    accuracy 80 10 5 5 = some (9 / 10) ∧
    precision 80 5 = some (80 / 85) ∧
    sensitivity 80 5 = some (80 / 85) ∧
    specificity 10 5 = some (10 / 15) ∧
    arr_balanced_accuracy [80, 10, 5, 5] = some ((80 / 85 + 10 / 15) / 2) ∧
    fall_out 10 5 = some (5 / 15) ∧
    miss_rate 80 5 = some (5 / 85) := by
  have hfp : fp + tn ≠ 0 := by rw [add_comm]; exact hspec
  have hfn : fn + tp ≠ 0 := by rw [add_comm]; exact hsens
  refine ⟨?_, ?_, ?_, ?_, ?_, ?_, ?_, ?_, ?_, ?_⟩
  · rw [fall_out, specificity, pydiv_of_ne _ _ hfp, pydiv_of_ne _ _ hspec]
    simp only [Option.map_some']
    congr 1
    rw [add_comm fp tn, eq_sub_iff_add_eq, div_add_div_same, add_comm fp tn,
        div_self hspec]
  · rw [miss_rate, sensitivity, pydiv_of_ne _ _ hfn, pydiv_of_ne _ _ hsens]
    simp only [Option.map_some']
    congr 1
    rw [add_comm fn tp, eq_sub_iff_add_eq, div_add_div_same, add_comm fn tp,
        div_self hsens]
  · rw [arr_balanced_accuracy]
    rw [(rowGet_four tp tn fp fn).1, (rowGet_four tp tn fp fn).2.1,
        (rowGet_four tp tn fp fn).2.2.1, (rowGet_four tp tn fp fn).2.2.2]
    rw [sensitivity, specificity, pydiv_of_ne _ _ hsens, pydiv_of_ne _ _ hspec]
    simp only [Option.some_bind, Option.map_some']
    congr 1
    ring
  · rw [accuracy, pydiv_of_ne _ _ (by norm_num)]
    norm_num
  · rw [precision, pydiv_of_ne _ _ (by norm_num)]
    norm_num
  · rw [sensitivity, pydiv_of_ne _ _ (by norm_num)]
    norm_num
  · rw [specificity, pydiv_of_ne _ _ (by norm_num)]
    norm_num
  · rw [arr_balanced_accuracy]
    rw [(rowGet_four 80 10 5 5).1, (rowGet_four 80 10 5 5).2.1,
        (rowGet_four 80 10 5 5).2.2.1, (rowGet_four 80 10 5 5).2.2.2]
    rw [sensitivity, specificity, pydiv_of_ne _ _ (by norm_num),
        pydiv_of_ne _ _ (by norm_num)]
    simp only [Option.some_bind, Option.map_some']
    norm_num
  · rw [fall_out, pydiv_of_ne _ _ (by norm_num)]
    norm_num
  · rw [miss_rate, pydiv_of_ne _ _ (by norm_num)]
    norm_num

/-- C4 witness: the general fall-out identity applied at TP=80, TN=10, FP=5,
FN=5, whose denominators are nonzero. -/
theorem metrics_standard_formulas_witness :
    fall_out 10 5 = (specificity 10 5).map (fun s => 1 - s) :=
  (metrics_standard_formulas 80 10 5 5 (by norm_num) (by norm_num)).1

/-- C7: every metric raises a division error exactly when its denominator sum
is zero (for balanced accuracy: when either of its two denominator sums is),
and succeeds whenever the denominators are nonzero; in particular a row with
TP=0 and FP=0 makes precision raise, and TN=0 and FP=0 makes specificity and
fall-out raise. -/
theorem metrics_zero_denominator (tp tn fp fn : ℚ) :
    (precision tp fp = none ↔ tp + fp = 0) ∧
    (specificity tn fp = none ↔ tn + fp = 0) ∧
    (fall_out tn fp = none ↔ fp + tn = 0) ∧
    (sensitivity tp fn = none ↔ tp + fn = 0) ∧
    (miss_rate tp fn = none ↔ fn + tp = 0) ∧
    (accuracy tp tn fp fn = none ↔ tp + fp + tn + fn = 0) ∧
    (arr_balanced_accuracy [tp, tn, fp, fn] = none ↔ tp + fn = 0 ∨ tn + fp = 0) ∧
    precision 0 0 = none ∧ specificity 0 0 = none ∧ fall_out 0 0 = none := by
  refine ⟨pydiv_eq_none_iff _ _, pydiv_eq_none_iff _ _, pydiv_eq_none_iff _ _,
    pydiv_eq_none_iff _ _, pydiv_eq_none_iff _ _, pydiv_eq_none_iff _ _, ?_, ?_, ?_, ?_⟩
  · rw [arr_balanced_accuracy]
    rw [(rowGet_four tp tn fp fn).1, (rowGet_four tp tn fp fn).2.1,
        (rowGet_four tp tn fp fn).2.2.1, (rowGet_four tp tn fp fn).2.2.2]
    by_cases h1 : tp + fn = 0
    · rw [sensitivity, pydiv]
      simp [h1]
    · rw [sensitivity, pydiv_of_ne _ _ h1]
      by_cases h2 : tn + fp = 0
      · rw [specificity, pydiv]
        simp [h1, h2]
      · rw [specificity, pydiv_of_ne _ _ h2]
        simp [h1, h2]
  · rw [precision, pydiv]
    norm_num
  · rw [specificity, pydiv]
    norm_num
  · rw [fall_out, pydiv]
    norm_num

/-- C1: for every requested view count in `N_VIEWS`, the Axis_Random policy's
command block fixes `--n-views` at the base of 5 and carries
`--n-repeat n/5` (so an `--n-repeat` flag is always present and the flat
`--n-views n` form is never emitted), while every other policy of `METHODS`
carries the plain `--n-views n` and no `--n-repeat`. -/
theorem axis_random_view_budget (n : Nat) (m : String × String × Nat)
    (hn : n ∈ N_VIEWS) (hm : m ∈ METHODS) (hname : m.1 ≠ "Axis_Random") :
    encodeViewBudget "Axis_Random" n = ⟨5, some ((n : ℚ) / 5)⟩ ∧
    (encodeViewBudget "Axis_Random" n).nViews = 5 ∧
    (encodeViewBudget "Axis_Random" n).nRepeat = some ((n : ℚ) / 5) ∧
    (encodeViewBudget "Axis_Random" n).nRepeat ≠ none ∧
    encodeViewBudget m.1 n = ⟨(n : ℚ), none⟩ := by
  refine ⟨?_, ?_, ?_, ?_, ?_⟩
  · simp [encodeViewBudget]
  · simp [encodeViewBudget]
  · simp [encodeViewBudget]
  · simp [encodeViewBudget]
  · simp [encodeViewBudget, hname]

/-- C1 witness: the budget encoding at the table entry `n = 10` and the
non-special policy `Sphere_Uniform`. -/
theorem axis_random_view_budget_witness :
    encodeViewBudget "Axis_Random" 10 = ⟨5, some ((10 : ℚ) / 5)⟩ ∧
    encodeViewBudget "Sphere_Uniform" 10 = ⟨(10 : ℚ), none⟩ := by
  have h := axis_random_view_budget 10
    ("Sphere_Uniform", "--type sphere --uniform --r 2.5", REGULAR_RERUNS)
    (by decide) (by simp [METHODS]) (by decide)
  exact ⟨h.1, h.2.2.2.2⟩

/-- C3: with `RANDOM_SEED = False` the seed passed to the engine is the
repetition index itself, independently of the random draw, so re-running a
repetition index reproduces its seed; only with random-seed mode enabled is
the seed the draw from `randrange(1, 1e8)`, which lies in `[1, 10^8)`. -/
theorem seed_deterministic (draw rep : Nat) (h1 : 1 ≤ draw) (h2 : draw < 10 ^ 8) :
    seedFor RANDOM_SEED draw rep = rep ∧
    seedFor true draw rep = draw ∧
    1 ≤ seedFor true draw rep ∧ seedFor true draw rep < 10 ^ 8 := by
  refine ⟨rfl, rfl, ?_, ?_⟩
  · simpa [seedFor] using h1
  · simpa [seedFor] using h2

/-- C3 witness: the seed choice at repetition 3 with a draw of 5. -/
theorem seed_deterministic_witness :
    seedFor RANDOM_SEED 5 3 = 3 ∧
    seedFor true 5 3 = 5 ∧
    1 ≤ seedFor true 5 3 ∧ seedFor true 5 3 < 10 ^ 8 :=
  seed_deterministic 5 3 (by norm_num) (by norm_num)

/-- C10: the plot-options table has exactly eleven keys; the plotting entry
point raises an `AssertionError` before performing any effect exactly when
the metric name is not one of them, and proceeds exactly when it is; in
particular `"accuracy"` passes and `"not-a-metric"` fails. -/
theorem plot_metric_assertion (plot : String) (rest : List PlotEffect) :
    (PLOT_OPTIONS.map Prod.fst).length = 11 ∧
    (plotMain plot rest = Except.ok rest ↔ plot ∈ PLOT_OPTIONS.map Prod.fst) ∧
    (plotMain plot rest =
        Except.error ("The option " ++ plot ++ " is not a valid plotting option.") ↔
      plot ∉ PLOT_OPTIONS.map Prod.fst) ∧
    plotMain "accuracy" rest = Except.ok rest ∧
    plotMain "not-a-metric" rest =
      Except.error "The option not-a-metric is not a valid plotting option." := by
  refine ⟨rfl, ?_, ?_, ?_, ?_⟩
  · by_cases h : plot ∈ PLOT_OPTIONS.map Prod.fst <;> simp [plotMain, h]
  · by_cases h : plot ∈ PLOT_OPTIONS.map Prod.fst <;> simp [plotMain, h]
  · have h : "accuracy" ∈ PLOT_OPTIONS.map Prod.fst := by decide
    simp [plotMain, h]
  · have h : "not-a-metric" ∉ PLOT_OPTIONS.map Prod.fst := by decide
    simp [plotMain, h]

/-- C5: when a configuration's result file already exists (inside its already
existing output directory) and `--no-override` is enabled, the loop body
leaves the file system and the list of `call_process` invocations exactly as
they were, and the sweep over the remaining configurations proceeds as if the
configuration had been consumed with no effect. -/
theorem no_override_skips (base : String) (st : SweepState) (c : SweepItem)
    (rest : List SweepItem)
    (hdir : outputDir base c ∈ st.fs)
    (hfile : resultFile base c ∈ st.fs) :
    stepConfig true base st c = st ∧
    (stepConfig true base st c).invoked = st.invoked ∧
    (stepConfig true base st c).fs = st.fs ∧
    runSweep true base st (c :: rest) = runSweep true base st rest := by
  have hstep : stepConfig true base st c = st := by
    obtain ⟨fs, invoked⟩ := st
    simp only [stepConfig, if_pos hdir]
    rw [if_pos ⟨hfile, trivial⟩]
  refine ⟨hstep, by rw [hstep], by rw [hstep], ?_⟩
  show runSweep true base (stepConfig true base st c) rest = runSweep true base st rest
  rw [hstep]

/-- C5 witness: a configuration whose output directory and result file are
both present is skipped without touching state. -/
theorem no_override_skips_witness :
    stepConfig true "Results"
      ⟨["Results/RealSense_d455/box/Sphere_Uniform/5/1",
        "Results/RealSense_d455/box/Sphere_Uniform/5/1/results.h5"], []⟩
      ⟨"RealSense_d455", "box", "Sphere_Uniform", 5, 1⟩ =
      ⟨["Results/RealSense_d455/box/Sphere_Uniform/5/1",
        "Results/RealSense_d455/box/Sphere_Uniform/5/1/results.h5"], []⟩ :=
  (no_override_skips "Results"
    ⟨["Results/RealSense_d455/box/Sphere_Uniform/5/1",
      "Results/RealSense_d455/box/Sphere_Uniform/5/1/results.h5"], []⟩
    ⟨"RealSense_d455", "box", "Sphere_Uniform", 5, 1⟩ []
    (by decide) (by decide)).1

/-- An association-list lookup fails exactly when the key names no entry. -/
theorem lookup_eq_none_iff (key : String) (file : List (String × H5Node)) :
    file.lookup key = none ↔ key ∉ file.map Prod.fst := by
  induction file with
  | nil => simp [List.lookup]
  | cons kv t ih =>
    obtain ⟨k, v⟩ := kv
    by_cases hk : key = k
    · subst hk
      simp [List.lookup]
    · have hbeq : (key == k) = false := by simpa using hk
      simp only [List.lookup, hbeq, List.map_cons, List.mem_cons]
      rw [ih]
      constructor
      · rintro h (h1 | h2)
        · exact hk h1
        · exact h h2
      · intro h hm
        exact h (Or.inr hm)

/-- A successful association-list lookup returns a value stored in the list. -/
theorem lookup_mem (key : String) (file : List (String × H5Node)) (h : H5Node) :
    file.lookup key = some h → (key, h) ∈ file := by
  induction file with
  | nil => simp [List.lookup]
  | cons kv t ih =>
    obtain ⟨k, v⟩ := kv
    by_cases hk : key = k
    · subst hk
      simp only [List.lookup, beq_self_eq_true, List.mem_cons]
      intro hv
      have hvh : v = h := by injection hv
      subst hvh
      exact Or.inl rfl
    · have hbeq : (key == k) = false := by simpa using hk
      simp only [List.lookup, hbeq, List.mem_cons]
      intro hsome
      exact Or.inr (ih hsome)

/-- C8: looking up the top-level `"Metric"` group fails with a `KeyError`
exactly when no root entry carries that name — the error propagates through
the nested accessor rather than being replaced by a default — and when the
group is present the accessor returns precisely the stored group. -/
theorem metric_group_lookup (file : List (String × H5Node)) (g : H5Node) :
    (get_metric_group file = none ↔ "Metric" ∉ file.map Prod.fst) ∧
    (∀ h, get_metric_group file = some h → ("Metric", h) ∈ file) ∧
    (get_metric_group file = none →
      get_metric_occupancy_confusion_group file = none) ∧
    get_metric_group (("Metric", g) :: file) = some g := by
  refine ⟨lookup_eq_none_iff "Metric" file, fun h => lookup_mem "Metric" file h, ?_, ?_⟩
  · intro hnone
    have hnone' : file.lookup "Metric" = none := hnone
    show (file.lookup "Metric").bind _ = none
    rw [hnone']
    rfl
  · simp [get_metric_group, List.lookup]

/-- C8 witness: the accessor applied to a file whose only root entry is the
`"Metric"` group returns that very group, and a file without it yields the
propagated error. -/
theorem metric_group_lookup_witness :
    ("Metric", H5Node.group []) ∈
      ([("Metric", H5Node.group [])] : List (String × H5Node)) :=
  (metric_group_lookup [("Metric", H5Node.group [])] (H5Node.group [])).2.1
    (H5Node.group []) (by simp [get_metric_group, List.lookup])

/-- A `find?` scan returns the first satisfying element, regardless of what
follows it. -/
theorem find?_first_match (p : DirEntry → Bool) (pre post : List DirEntry) (e : DirEntry)
    (hpre : ∀ x ∈ pre, p x = false) (he : p e = true) :
    (pre ++ e :: post).find? p = some e := by
  induction pre with
  | nil => exact List.find?_cons_of_pos _ he
  | cons x t ih =>
    rw [List.cons_append, List.find?_cons_of_neg]
    · exact ih fun x' hx' => hpre x' (List.mem_cons_of_mem _ hx')
    · rw [hpre x (List.mem_cons_self _ _)]
      simp

/-- Python's `s.find(sub) == 0` holds exactly when the first `len(sub)`
characters of `s` spell `sub`. -/
theorem pyStrFind_eq_zero_iff (s sub : String) :
    pyStrFind s sub = 0 ↔ s.toList.take sub.length = sub.toList := by
  unfold pyStrFind
  rw [List.range_succ_eq_map]
  by_cases h0 : (s.toList.drop 0).take sub.length = sub.toList
  · rw [List.find?_cons_of_pos _ (by simpa using h0)]
    simpa using h0
  · rw [List.find?_cons_of_neg _ (by simpa using h0)]
    simp only [List.drop_zero] at h0
    rcases hf : (List.find? (fun i => decide
        ((s.toList.drop i).take sub.length = sub.toList)) ((List.range s.length).map Nat.succ))
      with _ | j
    · simpa using h0
    · have hj : j ∈ (List.range s.length).map Nat.succ := List.mem_of_find?_eq_some hf
      obtain ⟨k, _, hk⟩ := List.mem_map.mp hj
      constructor
      · intro hzero
        exfalso
        have hzero' : (j : Int) = 0 := hzero
        have hj0 : j = 0 := by exact_mod_cast hzero'
        rw [← hk] at hj0
        exact Nat.succ_ne_zero k hj0
      · intro htake
        exact absurd htake h0

/-- C9: the discovery scan selects the first regular file in directory
iteration order whose name starts with the executable-name string, even when
later entries also match (no error is raised for the ambiguity); the startup
assertion fails exactly when no entry matches; and the match test
`name.find(EXECUTABLE_NAME) == 0` means exactly that the name starts with
that string. -/
theorem executable_discovery (entries pre post : List DirEntry) (e : DirEntry)
    (execName : String)
    (hsplit : entries = pre ++ e :: post)
    (hpre : ∀ x ∈ pre, ¬(x.isRegularFile = true ∧ pyStrFind x.name execName = 0))
    (he : e.isRegularFile = true ∧ pyStrFind e.name execName = 0) :
    findExecutable entries execName = some e ∧
    executableAssertionPasses entries execName = true ∧
    (∀ l : List DirEntry, findExecutable l execName = none ↔
        ∀ x ∈ l, ¬(x.isRegularFile = true ∧ pyStrFind x.name execName = 0)) ∧
    (∀ a b : String, pyStrFind a b = 0 ↔ a.toList.take b.length = b.toList) := by
  have hfound : findExecutable entries execName = some e := by
    rw [hsplit]
    refine find?_first_match _ pre post e ?_ ?_
    · intro x hx
      have hx' := hpre x hx
      rcases hb : x.isRegularFile with _ | _
      · simp [hb]
      · simp only [hb, Bool.true_and]
        rw [beq_eq_false_iff_ne]
        intro hc
        exact hx' ⟨hb, hc⟩
    · rw [he.1]
      simp [he.2]
  refine ⟨hfound, ?_, ?_, fun a b => pyStrFind_eq_zero_iff a b⟩
  · rw [executableAssertionPasses, hfound]
    rfl
  · intro l
    rw [findExecutable, List.find?_eq_none]
    constructor
    · intro h x hx ⟨h1, h2⟩
      have := h x hx
      rw [h1] at this
      simp [h2] at this
    · intro h x hx
      rcases hb : x.isRegularFile with _ | _
      · simp [hb]
      · simp only [hb, Bool.true_and]
        rw [Bool.not_eq_true, beq_eq_false_iff_ne]
        intro hc
        exact h x hx ⟨hb, hc⟩

/-- C9 witness: a binary directory holding two regular files that both start
with `RunExperiment`; the scan silently returns the first and the assertion
passes, although the second also matches. -/
theorem executable_discovery_witness :
    findExecutable [⟨"RunExperiment.exe", true⟩, ⟨"RunExperiment_v2", true⟩]
      EXECUTABLE_NAME = some ⟨"RunExperiment.exe", true⟩ ∧
    pyStrFind "RunExperiment_v2" EXECUTABLE_NAME = 0 :=
  ⟨(executable_discovery
      [⟨"RunExperiment.exe", true⟩, ⟨"RunExperiment_v2", true⟩]
      [] [⟨"RunExperiment_v2", true⟩] ⟨"RunExperiment.exe", true⟩
      EXECUTABLE_NAME rfl (by simp) (by refine ⟨rfl, ?_⟩; decide)).1,
   by decide⟩

/-- The length of a `flatMap` whose pieces all have the same length. -/
theorem length_flatMap_const {α β : Type} (l : List α) (f : α → List β) (c : Nat)
    (h : ∀ a ∈ l, (f a).length = c) : (l.flatMap f).length = l.length * c := by
  induction l with
  | nil => simp
  | cons x t ih =>
    simp only [List.flatMap_cons, List.length_append, List.length_cons]
    rw [h x (List.mem_cons_self _ _), ih fun a ha => h a (List.mem_cons_of_mem _ ha)]
    ring

/-- A filterMap whose filter never fires is a map. -/
theorem filterMap_skip_none (l : List (Nat × SweepItem)) :
    (l.filterMap fun p => if p.1 + 1 < 1 then none else some (p.1 + 1, p.2)) =
      l.map fun p => (p.1 + 1, p.2) := by
  induction l with
  | nil => rfl
  | cons a t ih =>
    have hlt : ¬(a.1 + 1 < 1) := by omega
    have hfa : (if a.1 + 1 < 1 then none else some (a.1 + 1, a.2)) = some (a.1 + 1, a.2) :=
      if_neg hlt
    rw [List.filterMap_cons, hfa, List.map_cons, ih]

set_option maxRecDepth 4000 in
/-- C2: the sweep's reported total equals
`|intrinsics| * |scenes| * |view-counts| * sum of repetitions` and equals the
number of enumerated configurations; iterating with `start-at = 1` visits
every configuration exactly once in the deterministic nesting order of
`sweepItems` (intrinsic, scene, policy, view count, repetition), tagging the
configuration at 0-based position `k` with the 1-based global index `k + 1`;
on the concrete tables, with a single scene, that total is 408. -/
theorem sweep_enumeration (I : List (String × String)) (S : List String)
    (M : List (String × String × Nat)) (V : List Nat) :
    (sweepItems I S M V).length = sweepTotal I S M V ∧
    sweepVisited 1 I S M V =
      (sweepItems I S M V).enum.map (fun p => (p.1 + 1, p.2)) ∧
    (sweepVisited 1 I S M V).map Prod.snd = sweepItems I S M V ∧
    (sweepVisited 1 I S M V).map Prod.fst =
      List.range' 1 (sweepItems I S M V).length ∧
    (sweepItems INTRINSICS ["box"] METHODS N_VIEWS).length = 408 := by
  have hV : ∀ (i : String × String) (s : String) (m : String × String × Nat),
      (V.flatMap fun nv =>
        (List.range m.2.2).map fun r => (⟨i.1, s, m.1, nv, r + 1⟩ : SweepItem)).length =
        V.length * m.2.2 := by
    intro i s m
    refine length_flatMap_const V _ _ ?_
    intro nv _
    simp
  have hM : ∀ (i : String × String) (s : String),
      (M.flatMap fun m => V.flatMap fun nv =>
        (List.range m.2.2).map fun r => (⟨i.1, s, m.1, nv, r + 1⟩ : SweepItem)).length =
        V.length * (M.map fun m => m.2.2).sum := by
    intro i s
    rw [List.length_flatMap]
    simp only [Function.comp_def]
    have hmap : (M.map fun m => (V.flatMap fun nv =>
        (List.range m.2.2).map fun r => (⟨i.1, s, m.1, nv, r + 1⟩ : SweepItem)).length) =
        M.map fun m => V.length * m.2.2 := by
      apply List.map_congr_left
      intro m _
      exact hV i s m
    rw [hmap, List.sum_map_mul_left]
  have hS : ∀ i : String × String,
      (S.flatMap fun s => M.flatMap fun m => V.flatMap fun nv =>
        (List.range m.2.2).map fun r => (⟨i.1, s, m.1, nv, r + 1⟩ : SweepItem)).length =
        S.length * (V.length * (M.map fun m => m.2.2).sum) := by
    intro i
    refine length_flatMap_const S _ _ ?_
    intro s _
    exact hM i s
  have hlen : (sweepItems I S M V).length = sweepTotal I S M V := by
    show (I.flatMap fun i => S.flatMap fun s => M.flatMap fun m => V.flatMap fun nv =>
      (List.range m.2.2).map fun r => (⟨i.1, s, m.1, nv, r + 1⟩ : SweepItem)).length = _
    rw [length_flatMap_const I _ (S.length * (V.length * (M.map fun m => m.2.2).sum))
      fun i _ => hS i]
    show _ = I.length * S.length * V.length * (M.map fun m => m.2.2).sum
    ring
  have hvisit : sweepVisited 1 I S M V =
      (sweepItems I S M V).enum.map (fun p => (p.1 + 1, p.2)) :=
    filterMap_skip_none _
  refine ⟨hlen, hvisit, ?_, ?_, by rfl⟩
  · rw [hvisit, List.map_map]
    have hcomp : (Prod.snd ∘ fun p : Nat × SweepItem => (p.1 + 1, p.2)) = Prod.snd := rfl
    rw [hcomp, List.enum_map_snd]
  · rw [hvisit, List.map_map]
    have hcomp : (Prod.fst ∘ fun p : Nat × SweepItem => (p.1 + 1, p.2)) =
        (fun p : Nat × SweepItem => p.1 + 1) := rfl
    rw [hcomp]
    have hsplit : (fun p : Nat × SweepItem => p.1 + 1) =
        ((fun i => i + 1) ∘ Prod.fst) := rfl
    rw [hsplit, ← List.map_map, List.enum_map_fst, List.range'_eq_map_range]
    apply List.map_congr_left
    intro i _
    omega

/-- One `groupStep` writes the group's rows into repetition slot `i` of the
shared data object and the metric curve into repetition slot `i` of the shared
result object. -/
theorem groupStep_spec (metric : List ℚ → Option ℚ)
    (readData : Nat → String → List (List ℚ)) (i : Nat) (bufs : SweepBuffers)
    (gg : Nat × String) (h : i < bufs.1.cell.length) :
    groupStep metric readData i bufs gg =
      (⟨bufs.1.cell.set i (readData i gg.2), bufs.1.len⟩,
       ⟨bufs.2.cell.set i (some 0 :: (readData i gg.2).map metric), bufs.2.len⟩) := by
  have hslice : ((bufs.1.cell.set i (readData i gg.2)).getD i []) = readData i gg.2 := by
    rw [List.getD_eq_getElem?_getD, List.getElem?_set_eq_of_lt _ h]
    rfl
  simp only [groupStep, AliasedList.get, AliasedList.writeAt]
  rw [hslice]

/-- Folding the three confusion groups through `groupStep` leaves, in both
shared objects, only the contribution of the last group read,
`"OccupancyConfusion_probability"`. -/
theorem innerFold_spec (metric : List ℚ → Option ℚ)
    (readData : Nat → String → List (List ℚ)) (i : Nat) (bufs : SweepBuffers)
    (h : i < bufs.1.cell.length) :
    CONFUSION_GROUPS.enum.foldl (groupStep metric readData i) bufs =
      (⟨bufs.1.cell.set i (readData i "OccupancyConfusion_probability"), bufs.1.len⟩,
       ⟨bufs.2.cell.set i
          (some 0 :: (readData i "OccupancyConfusion_probability").map metric),
        bufs.2.len⟩) := by
  have henum : CONFUSION_GROUPS.enum =
      [(0, "OccupancyConfusion_TSDF"), (1, "OccupancyConfusion_binary"),
       (2, "OccupancyConfusion_probability")] := rfl
  rw [henum, List.foldl_cons, List.foldl_cons, List.foldl_cons, List.foldl_nil]
  rw [groupStep_spec metric readData i bufs (0, "OccupancyConfusion_TSDF") h]
  rw [groupStep_spec metric readData i
      (⟨bufs.1.cell.set i (readData i "OccupancyConfusion_TSDF"), bufs.1.len⟩,
       ⟨bufs.2.cell.set i
          (some 0 :: (readData i "OccupancyConfusion_TSDF").map metric), bufs.2.len⟩)
      (1, "OccupancyConfusion_binary") (by simpa using h)]
  rw [groupStep_spec metric readData i
      (⟨(bufs.1.cell.set i (readData i "OccupancyConfusion_TSDF")).set i
          (readData i "OccupancyConfusion_binary"), bufs.1.len⟩,
       ⟨(bufs.2.cell.set i
          (some 0 :: (readData i "OccupancyConfusion_TSDF").map metric)).set i
          (some 0 :: (readData i "OccupancyConfusion_binary").map metric), bufs.2.len⟩)
      (2, "OccupancyConfusion_probability") (by simpa using h)]
  simp only [List.set_set]

/-- The repetition loop: after `n` repetitions the two shared objects hold
exactly the probability group's data and curves for repetitions `0..n-1` and
zeros beyond. -/
theorem sweepBuffers_loop (metric : List ℚ → Option ℚ)
    (readData : Nat → String → List (List ℚ)) (nReps nViews : Nat) :
    ∀ n, n ≤ nReps →
    (List.range n).foldl
        (fun bufs i => CONFUSION_GROUPS.enum.foldl (groupStep metric readData i) bufs)
        (pyListRepeat (List.replicate nReps (zerosMatrix nViews)) CONFUSION_GROUPS.length,
         pyListRepeat (List.replicate nReps (zerosColumn nViews)) CONFUSION_GROUPS.length) =
      (⟨((List.range n).map fun i => readData i "OccupancyConfusion_probability") ++
          List.replicate (nReps - n) (zerosMatrix nViews), CONFUSION_GROUPS.length⟩,
       ⟨((List.range n).map fun i =>
            some 0 :: (readData i "OccupancyConfusion_probability").map metric) ++
          List.replicate (nReps - n) (zerosColumn nViews), CONFUSION_GROUPS.length⟩) := by
  intro n
  induction n with
  | zero =>
    intro _
    simp [pyListRepeat]
  | succ k ih =>
    intro hn
    have hk : k ≤ nReps := Nat.le_of_succ_le hn
    have hklt : k < nReps := hn
    rw [List.range_succ, List.foldl_append, ih hk, List.foldl_cons, List.foldl_nil]
    have hlen1 : (((List.range k).map fun i =>
        readData i "OccupancyConfusion_probability") ++
        List.replicate (nReps - k) (zerosMatrix nViews)).length = nReps := by
      simp
      omega
    rw [innerFold_spec _ _ _ _ (by rw [hlen1]; exact hklt)]
    have hmlen : ((List.range k).map fun i =>
        readData i "OccupancyConfusion_probability").length = k := by simp
    have hclen : ((List.range k).map fun i =>
        some 0 :: (readData i "OccupancyConfusion_probability").map metric).length = k := by
      simp
    have hrep : nReps - k = (nReps - (k + 1)) + 1 := by omega
    rw [List.set_append_right _ _ hmlen.le,
        List.set_append_right _ _ hclen.le, hmlen, hclen, Nat.sub_self,
        hrep, List.replicate_succ, List.replicate_succ, List.set_cons_zero,
        List.set_cons_zero]
    simp [List.range_succ]

/-- C6: because both buffer lists are built with Python list repetition, every
figure's saved data equals the result computed from the last confusion group
read, `"OccupancyConfusion_probability"` (the final entry of
`CONFUSION_GROUPS`), so the three saved figures carry identical data instead
of three distinct sources. -/
theorem aliased_confusion_buffers (metric : List ℚ → Option ℚ)
    (readData : Nat → String → List (List ℚ)) (nReps nViews g g1 g2 : Nat) :
    savedFigureData metric readData nReps nViews g =
      groupOnlyResult metric readData nReps "OccupancyConfusion_probability" ∧
    savedFigureData metric readData nReps nViews g1 =
      savedFigureData metric readData nReps nViews g2 ∧
    CONFUSION_GROUPS.getLast? = some "OccupancyConfusion_probability" := by
  have hloop := sweepBuffers_loop metric readData nReps nViews nReps (le_refl _)
  have hsb : sweepBuffers metric readData nReps nViews =
      (⟨((List.range nReps).map fun i => readData i "OccupancyConfusion_probability") ++
          List.replicate (nReps - nReps) (zerosMatrix nViews), CONFUSION_GROUPS.length⟩,
       ⟨((List.range nReps).map fun i =>
            some 0 :: (readData i "OccupancyConfusion_probability").map metric) ++
          List.replicate (nReps - nReps) (zerosColumn nViews), CONFUSION_GROUPS.length⟩) := by
    rw [sweepBuffers]
    exact hloop
  refine ⟨?_, rfl, rfl⟩
  rw [savedFigureData, hsb]
  simp only [AliasedList.get, Nat.sub_self, List.replicate_zero, List.append_nil]
  rfl

end ForgeScan
